import Mathlib

/-!
Verification of flashbang: the timeline controller and the frame compositor.

A shallow embedding of `src/flashbang.c`: the tick callback `update_cb` (the
timeline state machine), the draw handler `on_draw` (the compositor) and the
part of `main` that builds the initial `FlashbangApp`.

Model of `gdouble`.  `GDouble` is the C `double` with its IEEE-754 special
values kept (`nan`, `ninf`, `pinf`) and its finite values taken as exact
rationals: a finite result is the exact quotient, difference or product, so
rounding to 53 bits is not modelled.  Division by zero, `0/0`, comparisons with
NaN and the GLib `MIN` and `MAX` ternaries behave as in C.  The sign of zero is
not tracked: a zero divisor is `+0.0`, the only zero this program produces.

Model of time.  `g_get_monotonic_time()` is an input: every call of it in the
source is one `Int` argument (microseconds) of the embedded function.

Model of cairo.  `on_draw` is the list of cairo calls it makes; what a call
does to the surface is cairo's business and is not modelled.
-/

namespace Flashbang

/-! The type `gdouble` and its C operations. -/

/-- The C type `gdouble`: NaN, the two infinities, or a finite value. -/
inductive GDouble where
  | nan : GDouble
  | ninf : GDouble
  | fin (q : ℚ) : GDouble
  | pinf : GDouble
deriving DecidableEq

namespace GDouble

/-- The literal `0.0`. -/
def zero : GDouble := fin 0

/-- The literal `1.0`. -/
def one : GDouble := fin 1

/-- Conversion `(gdouble) i` of an integer. -/
def ofInt (i : Int) : GDouble := fin (i : ℚ)

/-- C `a < b` on doubles; false as soon as one side is NaN. -/
def lt : GDouble → GDouble → Bool
  | nan, _ => false
  | _, nan => false
  | ninf, ninf => false
  | ninf, _ => true
  | fin _, ninf => false
  | fin x, fin y => decide (x < y)
  | fin _, pinf => true
  | pinf, _ => false

/-- C `a > b` on doubles. -/
def gt (a b : GDouble) : Bool := lt b a

/-- C `a <= b` on doubles; false as soon as one side is NaN. -/
def le : GDouble → GDouble → Bool
  | nan, _ => false
  | _, nan => false
  | ninf, _ => true
  | fin _, ninf => false
  | fin x, fin y => decide (x ≤ y)
  | fin _, pinf => true
  | pinf, pinf => true
  | pinf, _ => false

/-- C `a >= b` on doubles. -/
def ge (a b : GDouble) : Bool := le b a

/-- C `a - b` on doubles. -/
def sub : GDouble → GDouble → GDouble
  | nan, _ => nan
  | _, nan => nan
  | fin x, fin y => fin (x - y)
  | fin _, pinf => ninf
  | fin _, ninf => pinf
  | pinf, pinf => nan
  | pinf, _ => pinf
  | ninf, ninf => nan
  | ninf, _ => ninf

/-- C `a * b` on doubles. -/
def mul : GDouble → GDouble → GDouble
  | nan, _ => nan
  | _, nan => nan
  | fin x, fin y => fin (x * y)
  | fin x, pinf => if 0 < x then pinf else if x < 0 then ninf else nan
  | fin x, ninf => if 0 < x then ninf else if x < 0 then pinf else nan
  | pinf, fin y => if 0 < y then pinf else if y < 0 then ninf else nan
  | ninf, fin y => if 0 < y then ninf else if y < 0 then pinf else nan
  | pinf, pinf => pinf
  | ninf, ninf => pinf
  | pinf, ninf => ninf
  | ninf, pinf => ninf

/-- C `a / b` on doubles: a finite non-zero value over zero is an infinity,
`0/0` and `inf/inf` are NaN, a finite value over an infinity is zero. -/
def div : GDouble → GDouble → GDouble
  | nan, _ => nan
  | _, nan => nan
  | fin x, fin y =>
      if y = 0 then (if 0 < x then pinf else if x < 0 then ninf else nan)
      else fin (x / y)
  | fin _, pinf => fin 0
  | fin _, ninf => fin 0
  | pinf, fin y => if 0 ≤ y then pinf else ninf
  | ninf, fin y => if 0 ≤ y then ninf else pinf
  | pinf, pinf => nan
  | pinf, ninf => nan
  | ninf, pinf => nan
  | ninf, ninf => nan

/-- GLib `MIN(a, b)`, the ternary `((a) < (b)) ? (a) : (b)`. -/
def MIN (a b : GDouble) : GDouble := if lt a b then a else b

/-- GLib `MAX(a, b)`, the ternary `((a) > (b)) ? (a) : (b)`. -/
def MAX (a b : GDouble) : GDouble := if gt a b then a else b

/-- The value lies in the closed interval `[0, 1]` (C comparisons, so NaN does
not). -/
def inUnit (a : GDouble) : Prop := le zero a = true ∧ le a one = true

instance (a : GDouble) : Decidable (inUnit a) := by
  unfold inUnit; infer_instance

end GDouble

/-! Application state and the tick callback. -/

/-- The enum `FlashState`. -/
inductive FlashState where
  | STATE_WAITING
  | STATE_FLASHBANG
  | STATE_FADE_IN
  | STATE_SHOW
  | STATE_FADE_OUT
deriving DecidableEq

open FlashState

/-- The pixel size of a decoded `GdkPixbuf` (`gdk_pixbuf_get_width`,
`gdk_pixbuf_get_height`). -/
structure GdkPixbuf where
  width : Int
  height : Int
deriving DecidableEq

/-- The struct `FlashbangApp`, without its window, player and path handles.
`pixbuf` is `none` for a NULL pointer. -/
structure FlashbangApp where
  pixbuf : Option GdkPixbuf
  state : FlashState
  image_alpha : GDouble
  window_alpha : GDouble
  start_time_us : Int
  audio_delay_ms : GDouble
  flashbang_duration_ms : GDouble
  fade_in_duration_ms : GDouble
  fade_out_duration_ms : GDouble
  show_duration_ms : GDouble
deriving DecidableEq

/-- The function `elapsed_ms`: `(now_us - app->start_time_us) / 1000.0`, with
`now_us` the clock reading it takes. -/
def elapsed_ms (app : FlashbangApp) (now_us : Int) : GDouble :=
  GDouble.div (GDouble.ofInt (now_us - app.start_time_us)) (GDouble.fin 1000)

/-- What one call of `update_cb` leaves behind: the mutated struct, the
`gboolean` it returns (`G_SOURCE_CONTINUE` is `true`, `G_SOURCE_REMOVE` is
`false`), whether it called `gtk_main_quit` and whether it called
`gtk_widget_queue_draw`. -/
structure UpdateResult where
  app : FlashbangApp
  ret : Bool
  main_quit : Bool
  queue_draw : Bool
deriving DecidableEq

/-- The exit of `update_cb` after the `switch`: queue a redraw and return
`G_SOURCE_CONTINUE`. -/
def continue_with (app : FlashbangApp) : UpdateResult :=
  { app := app, ret := true, main_quit := false, queue_draw := true }

/-- The callback `update_cb`. `now_us` is the clock reading taken by
`elapsed_ms` on entry, `reset_us` the reading stored in `start_time_us` when
the phase changes. -/
def update_cb (app : FlashbangApp) (now_us reset_us : Int) : UpdateResult :=
  let elapsed := elapsed_ms app now_us
  match app.state with
  | STATE_WAITING =>
      let app := { app with window_alpha := GDouble.zero }
      if GDouble.ge elapsed app.audio_delay_ms then
        continue_with { app with state := STATE_FLASHBANG, start_time_us := reset_us }
      else continue_with app
  | STATE_FLASHBANG =>
      let app := { app with image_alpha := GDouble.zero }
      let app := { app with window_alpha := GDouble.one }
      if GDouble.ge elapsed app.flashbang_duration_ms then
        continue_with { app with state := STATE_FADE_IN, start_time_us := reset_us }
      else continue_with app
  | STATE_FADE_IN =>
      let app := { app with
        image_alpha := GDouble.MIN GDouble.one (GDouble.div elapsed app.fade_in_duration_ms) }
      let app := { app with window_alpha := GDouble.one }
      if GDouble.ge elapsed app.fade_in_duration_ms then
        continue_with { app with
          state := STATE_SHOW, image_alpha := GDouble.one, start_time_us := reset_us }
      else continue_with app
  | STATE_SHOW =>
      let app := { app with image_alpha := GDouble.one }
      let app := { app with window_alpha := GDouble.one }
      if GDouble.ge elapsed app.show_duration_ms then
        continue_with { app with state := STATE_FADE_OUT, start_time_us := reset_us }
      else continue_with app
  | STATE_FADE_OUT =>
      let fade := GDouble.MAX GDouble.zero
        (GDouble.sub GDouble.one (GDouble.div elapsed app.fade_out_duration_ms))
      let app := { app with image_alpha := fade }
      let app := { app with window_alpha := fade }
      if GDouble.ge elapsed app.fade_out_duration_ms then
        { app := app, ret := false, main_quit := true, queue_draw := false }
      else continue_with app

/-! The compositor. -/

/-- The cairo calls made on the drawing context, in the order made. The pixbuf
source is recorded by the pixel size of the pixbuf. -/
inductive CairoOp where
  | set_source_rgba (red green blue alpha : GDouble)
  | paint
  | save
  | translate (tx ty : GDouble)
  | scale (sx sy : GDouble)
  | set_source_pixbuf (pixbuf : GdkPixbuf) (pixbuf_x pixbuf_y : GDouble)
  | paint_with_alpha (alpha : GDouble)
  | restore
deriving DecidableEq

/-- The five `gdouble` locals of the image branch of `on_draw`. -/
structure Placement where
  scale : GDouble
  draw_width : GDouble
  draw_height : GDouble
  x : GDouble
  y : GDouble
deriving DecidableEq

/-- The image branch of `on_draw` up to `cairo_save`: the locals computed from
the allocated `width`, `height` and the pixbuf's `img_width`, `img_height`. -/
def placement (width height img_width img_height : Int) : Placement :=
  let scale := GDouble.MIN
    (GDouble.div (GDouble.ofInt width) (GDouble.ofInt img_width))
    (GDouble.div (GDouble.ofInt height) (GDouble.ofInt img_height))
  let draw_width := GDouble.mul (GDouble.ofInt img_width) scale
  let draw_height := GDouble.mul (GDouble.ofInt img_height) scale
  let x := GDouble.div (GDouble.sub (GDouble.ofInt width) draw_width) (GDouble.fin 2)
  let y := GDouble.div (GDouble.sub (GDouble.ofInt height) draw_height) (GDouble.fin 2)
  { scale := scale, draw_width := draw_width, draw_height := draw_height, x := x, y := y }

/-- The handler `on_draw`, as the list of cairo calls it makes; `width` and
`height` are the allocated size of the widget. It returns `FALSE` on every
path and writes nothing to `app`. -/
def on_draw (app : FlashbangApp) (width height : Int) : List CairoOp :=
  if app.state = STATE_WAITING then
    [CairoOp.set_source_rgba GDouble.zero GDouble.zero GDouble.zero GDouble.zero,
     CairoOp.paint]
  else
    [CairoOp.set_source_rgba GDouble.one GDouble.one GDouble.one app.window_alpha,
     CairoOp.paint] ++
    (if app.state ≠ STATE_FLASHBANG ∧ GDouble.gt app.image_alpha GDouble.zero = true then
      match app.pixbuf with
      | none => []
      | some pixbuf =>
          let p := placement width height pixbuf.width pixbuf.height
          [CairoOp.save,
           CairoOp.translate p.x p.y,
           CairoOp.scale p.scale p.scale,
           CairoOp.set_source_pixbuf pixbuf GDouble.zero GDouble.zero,
           CairoOp.paint_with_alpha app.image_alpha,
           CairoOp.restore]
    else [])

/-! Start-up and the tick loop. -/

/-- The struct as `main` has it when it installs the timer, for a given table
of durations: `g_new0` zeroes it, the state is `STATE_WAITING`, both alphas are
`0.0` and `start_time_us` is the clock reading `t0`. -/
def initial_app (audio_delay_ms flashbang_duration_ms fade_in_duration_ms
    show_duration_ms fade_out_duration_ms : GDouble)
    (pixbuf : Option GdkPixbuf) (t0 : Int) : FlashbangApp :=
  { pixbuf := pixbuf
    state := STATE_WAITING
    image_alpha := GDouble.zero
    window_alpha := GDouble.zero
    start_time_us := t0
    audio_delay_ms := audio_delay_ms
    flashbang_duration_ms := flashbang_duration_ms
    fade_in_duration_ms := fade_in_duration_ms
    fade_out_duration_ms := fade_out_duration_ms
    show_duration_ms := show_duration_ms }

/-- The show duration `main` derives from the probed audio duration:
`MAX(0.0, audio - delay - flashbang - fade_in - fade_out)`. -/
def derive_show_duration_ms (audio_duration_ms audio_delay_ms flashbang_duration_ms
    fade_in_duration_ms fade_out_duration_ms : GDouble) : GDouble :=
  GDouble.MAX GDouble.zero
    (GDouble.sub (GDouble.sub (GDouble.sub (GDouble.sub audio_duration_ms audio_delay_ms)
      flashbang_duration_ms) fade_in_duration_ms) fade_out_duration_ms)

/-- The struct built by `main`: delay `1000.0`, flash `300.0`, both fades
`1000.0`, the show duration derived from the probed `audio_duration_ms`. -/
def main_app (audio_duration_ms : GDouble) (pixbuf : Option GdkPixbuf) (t0 : Int) :
    FlashbangApp :=
  initial_app (GDouble.fin 1000) (GDouble.fin 300) (GDouble.fin 1000)
    (derive_show_duration_ms audio_duration_ms (GDouble.fin 1000) (GDouble.fin 300)
      (GDouble.fin 1000) (GDouble.fin 1000))
    (GDouble.fin 1000) pixbuf t0

/-- The two clock readings one call of `update_cb` takes. -/
structure Tick where
  now_us : Int
  reset_us : Int
deriving DecidableEq

/-- The timer source installed by `g_timeout_add`: the struct, and whether the
callback has returned `G_SOURCE_REMOVE` (after which GLib calls it no more). -/
structure Timeline where
  app : FlashbangApp
  finished : Bool
deriving DecidableEq

/-- One firing of the timer: `update_cb` runs unless the source is removed. -/
def tick (tl : Timeline) (t : Tick) : Timeline :=
  if tl.finished then tl
  else
    let r := update_cb tl.app t.now_us t.reset_us
    { app := r.app, finished := !r.ret }

/-- The timer firing at each of the ticks, in order. -/
def run (tl : Timeline) (ts : List Tick) : Timeline :=
  ts.foldl tick tl

/-- The timeline at the moment `main` installs the timer. -/
def start (app : FlashbangApp) : Timeline :=
  { app := app, finished := false }

/-- The phases of the timeline; `Done` stands for the removed timer. -/
inductive Phase where
  | Waiting
  | Flash
  | FadeIn
  | Show
  | FadeOut
  | Done
deriving DecidableEq

/-- The phase a timeline is in. -/
def Timeline.phase (tl : Timeline) : Phase :=
  if tl.finished then Phase.Done
  else
    match tl.app.state with
    | STATE_WAITING => Phase.Waiting
    | STATE_FLASHBANG => Phase.Flash
    | STATE_FADE_IN => Phase.FadeIn
    | STATE_SHOW => Phase.Show
    | STATE_FADE_OUT => Phase.FadeOut

/-- The position of a phase in the order of the timeline. -/
def Phase.rank : Phase → Nat
  | Phase.Waiting => 0
  | Phase.Flash => 1
  | Phase.FadeIn => 2
  | Phase.Show => 3
  | Phase.FadeOut => 4
  | Phase.Done => 5

/-- The phases in timeline order. -/
def Phase.order : List Phase :=
  [Phase.Waiting, Phase.Flash, Phase.FadeIn, Phase.Show, Phase.FadeOut, Phase.Done]

/-- The phases a timeline shows: the one it starts in, then the one after each
tick. -/
def trace (tl : Timeline) : List Tick → List Phase
  | [] => [tl.phase]
  | t :: ts => tl.phase :: trace (tick tl t) ts

/-- A tick at `ms` milliseconds on the clock, both of its readings the same. -/
def tick_at_ms (ms : Int) : Tick :=
  { now_us := ms * 1000, reset_us := ms * 1000 }

/-- The timer firing every `period_ms` milliseconds, `n` times: ticks at
`period_ms`, `2 * period_ms`, ..., `n * period_ms` on the clock. -/
def ticks_every (period_ms : Int) (n : Nat) : List Tick :=
  (List.range' 1 n).map (fun k => tick_at_ms (period_ms * (k : Int)))

/-- One firing of the timer keeps the phase or moves it to the next one. -/
def Phase.step (p q : Phase) : Prop :=
  q = p ∨ q.rank = p.rank + 1

/-- The input at which the fade-out ramp is `0/0`: a struct in `STATE_FADE_OUT`
whose fade-out lasts `0.0` ms, both alphas `1.0`, the phase started at clock
reading 0. -/
def zero_fade_out_app : FlashbangApp :=
  { pixbuf := none
    state := STATE_FADE_OUT
    image_alpha := GDouble.one
    window_alpha := GDouble.one
    start_time_us := 0
    audio_delay_ms := GDouble.fin 1000
    flashbang_duration_ms := GDouble.fin 300
    fade_in_duration_ms := GDouble.fin 1000
    fade_out_duration_ms := GDouble.fin 0
    show_duration_ms := GDouble.fin 2000 }

/-- The struct of the worked example: delay 1000, flash 300, fade-in 1000, show
2000, fade-out 1000 (ms), the timeline started at clock reading 0. -/
def example_app : FlashbangApp :=
  initial_app (GDouble.fin 1000) (GDouble.fin 300) (GDouble.fin 1000) (GDouble.fin 2000)
    (GDouble.fin 1000) none 0

/-! Theorems. -/

/-! Facts about `gdouble` arithmetic. -/

namespace GDouble

@[simp]
theorem lt_nan_right (a : GDouble) : lt a nan = false := by cases a <;> rfl
@[simp]
theorem lt_nan_left (a : GDouble) : lt nan a = false := by cases a <;> rfl
@[simp]
theorem lt_fin_fin (x y : ℚ) : lt (fin x) (fin y) = decide (x < y) := rfl
@[simp]
theorem lt_fin_pinf (x : ℚ) : lt (fin x) pinf = true := rfl
@[simp]
theorem lt_fin_ninf (x : ℚ) : lt (fin x) ninf = false := rfl
@[simp]
theorem lt_ninf_fin (x : ℚ) : lt ninf (fin x) = true := rfl
@[simp]
theorem lt_pinf_left (a : GDouble) : lt pinf a = false := by cases a <;> rfl
@[simp]
theorem lt_ninf_right (a : GDouble) : lt a ninf = false := by cases a <;> rfl
@[simp]
theorem lt_ninf_pinf : lt ninf pinf = true := rfl

@[simp]
theorem le_nan_right (a : GDouble) : le a nan = false := by cases a <;> rfl
@[simp]
theorem le_nan_left (a : GDouble) : le nan a = false := by cases a <;> rfl
@[simp]
theorem le_fin_fin (x y : ℚ) : le (fin x) (fin y) = decide (x ≤ y) := rfl
@[simp]
theorem le_fin_pinf (x : ℚ) : le (fin x) pinf = true := rfl
@[simp]
theorem le_fin_ninf (x : ℚ) : le (fin x) ninf = false := rfl
@[simp]
theorem le_ninf_fin (x : ℚ) : le ninf (fin x) = true := rfl
@[simp]
theorem le_pinf_fin (x : ℚ) : le pinf (fin x) = false := rfl
@[simp]
theorem le_pinf_ninf : le pinf ninf = false := rfl
@[simp]
theorem le_pinf_pinf : le pinf pinf = true := rfl
@[simp]
theorem le_ninf_ninf : le ninf ninf = true := rfl
@[simp]
theorem le_ninf_pinf : le ninf pinf = true := rfl

@[simp]
theorem sub_fin_fin (x y : ℚ) : sub (fin x) (fin y) = fin (x - y) := rfl
@[simp]
theorem sub_fin_pinf (x : ℚ) : sub (fin x) pinf = ninf := rfl
@[simp]
theorem sub_fin_ninf (x : ℚ) : sub (fin x) ninf = pinf := rfl
@[simp]
theorem sub_nan_right (a : GDouble) : sub a nan = nan := by cases a <;> rfl
@[simp]
theorem sub_nan_left (a : GDouble) : sub nan a = nan := by cases a <;> rfl

@[simp]
theorem mul_fin_fin (x y : ℚ) : mul (fin x) (fin y) = fin (x * y) := rfl

@[simp]
theorem div_fin_fin (x y : ℚ) :
    div (fin x) (fin y) =
      if y = 0 then (if 0 < x then pinf else if x < 0 then ninf else nan) else fin (x / y) := rfl
@[simp]
theorem div_fin_pinf (x : ℚ) : div (fin x) pinf = fin 0 := rfl
@[simp]
theorem div_fin_ninf (x : ℚ) : div (fin x) ninf = fin 0 := rfl
@[simp]
theorem div_nan_right (a : GDouble) : div a nan = nan := by cases a <;> rfl
@[simp]
theorem div_nan_left (a : GDouble) : div nan a = nan := by cases a <;> rfl

/-- A double that compares `>= 0.0` is a non-negative finite value or `+inf`. -/
theorem ge_zero_cases (d : GDouble) (hd : ge d zero = true) :
    (∃ q : ℚ, d = fin q ∧ 0 ≤ q) ∨ d = pinf := by
  cases d with
  | nan => simp [ge, zero] at hd
  | ninf => simp [ge, zero] at hd
  | pinf => exact Or.inr rfl
  | fin q => exact Or.inl ⟨q, rfl, by simpa [ge, zero] using hd⟩

end GDouble

theorem elapsed_ms_eq (app : FlashbangApp) (now_us : Int) :
    elapsed_ms app now_us = GDouble.fin (((now_us - app.start_time_us : Int) : ℚ) / 1000) := by
  simp [elapsed_ms, GDouble.ofInt]

theorem elapsed_nonneg (app : FlashbangApp) (now_us : Int) (h : app.start_time_us ≤ now_us) :
    (0 : ℚ) ≤ ((now_us - app.start_time_us : Int) : ℚ) / 1000 := by
  have h1 : (0 : ℚ) ≤ ((now_us - app.start_time_us : Int) : ℚ) := by
    exact_mod_cast Int.sub_nonneg.mpr h
  positivity

theorem elapsed_pos (app : FlashbangApp) (now_us : Int) (h : app.start_time_us < now_us) :
    (0 : ℚ) < ((now_us - app.start_time_us : Int) : ℚ) / 1000 := by
  have h1 : (0 : ℚ) < ((now_us - app.start_time_us : Int) : ℚ) := by
    exact_mod_cast Int.sub_pos.mpr h
  positivity

/-- The fade-in ramp `MIN(1.0, elapsed / d)` lies in `[0, 1]` while the phase
has not run out. -/
theorem fade_in_ramp_inUnit (e : ℚ) (he : 0 ≤ e) (d : GDouble)
    (hd : GDouble.ge d GDouble.zero = true) :
    GDouble.ge (GDouble.fin e) d = true ∨
      GDouble.inUnit (GDouble.MIN GDouble.one (GDouble.div (GDouble.fin e) d)) := by
  rcases GDouble.ge_zero_cases d hd with ⟨q, rfl, hq⟩ | rfl
  · by_cases hlt : q ≤ e
    · left; simpa [GDouble.ge] using hlt
    · right
      have hdpos : 0 < q := lt_of_le_of_lt he (not_le.mp hlt)
      have hne : q ≠ 0 := ne_of_gt hdpos
      have h1 : e / q < 1 := (div_lt_one hdpos).mpr (not_le.mp hlt)
      have h0 : 0 ≤ e / q := div_nonneg he hq
      simp [hne, GDouble.MIN, GDouble.one, GDouble.inUnit, GDouble.zero,
        not_lt.mpr (le_of_lt h1), h0, le_of_lt h1]
  · right
    norm_num [GDouble.MIN, GDouble.one, GDouble.inUnit, GDouble.zero]

/-- The fade-out ramp `MAX(0.0, 1.0 - elapsed / d)` lies in `[0, 1]` unless the
division is `0/0`. -/
theorem fade_out_ramp_inUnit (e : ℚ) (he : 0 ≤ e) (d : GDouble)
    (hd : GDouble.ge d GDouble.zero = true) (hz : d = GDouble.zero → 0 < e) :
    GDouble.inUnit (GDouble.MAX GDouble.zero
      (GDouble.sub GDouble.one (GDouble.div (GDouble.fin e) d))) := by
  rcases GDouble.ge_zero_cases d hd with ⟨q, rfl, hq⟩ | rfl
  · by_cases hd0 : q = 0
    · subst hd0
      have hpos : 0 < e := hz rfl
      simp [hpos, GDouble.MAX, GDouble.gt, GDouble.one, GDouble.inUnit, GDouble.zero]
    · have h0 : 0 ≤ e / q := div_nonneg he hq
      by_cases hlt : 1 - e / q < 0
      · simp [hd0, GDouble.MAX, GDouble.gt, GDouble.one, GDouble.inUnit, GDouble.zero, hlt]
      · have h1 : 0 ≤ 1 - e / q := not_lt.mp hlt
        simp [hd0, GDouble.MAX, GDouble.gt, GDouble.one, GDouble.inUnit, GDouble.zero, hlt, h0]
        linarith
  · norm_num [GDouble.MAX, GDouble.gt, GDouble.one, GDouble.inUnit, GDouble.zero]

/-- What `update_cb` stores in `image_alpha` when called in `STATE_FADE_IN`. -/
theorem fade_in_image_alpha (app : FlashbangApp) (now_us reset_us : Int)
    (hs : app.state = STATE_FADE_IN) :
    (update_cb app now_us reset_us).app.image_alpha =
      if GDouble.ge (elapsed_ms app now_us) app.fade_in_duration_ms = true then GDouble.one
      else GDouble.MIN GDouble.one
        (GDouble.div (elapsed_ms app now_us) app.fade_in_duration_ms) := by
  unfold update_cb
  simp only [hs]
  split <;> simp [continue_with]

/-- What `update_cb` stores in both alphas when called in `STATE_FADE_OUT`. -/
theorem fade_out_alphas (app : FlashbangApp) (now_us reset_us : Int)
    (hs : app.state = STATE_FADE_OUT) :
    (update_cb app now_us reset_us).app.window_alpha =
        GDouble.MAX GDouble.zero (GDouble.sub GDouble.one
          (GDouble.div (elapsed_ms app now_us) app.fade_out_duration_ms)) ∧
    (update_cb app now_us reset_us).app.image_alpha =
        GDouble.MAX GDouble.zero (GDouble.sub GDouble.one
          (GDouble.div (elapsed_ms app now_us) app.fade_out_duration_ms)) := by
  unfold update_cb
  simp only [hs]
  split <;> simp [continue_with]

/-- C4: a phase whose duration is `0.0` is left by the call of `update_cb` made
in it, for every `elapsed >= 0`: from the four first states the call moves to
the next state, stores the second clock reading in `start_time_us` and returns
`G_SOURCE_CONTINUE`; from `STATE_FADE_OUT` it calls `gtk_main_quit` and returns
`G_SOURCE_REMOVE`. The stated case, `flashbang_duration_ms = 0.0` in
`STATE_FLASHBANG`, is the second part. -/
theorem update_cb_zero_duration_exits (app : FlashbangApp) (now_us reset_us : Int)
    (hel : app.start_time_us ≤ now_us) :
    (app.state = STATE_WAITING → app.audio_delay_ms = GDouble.zero →
      (update_cb app now_us reset_us).app.state = STATE_FLASHBANG ∧
      (update_cb app now_us reset_us).app.start_time_us = reset_us ∧
      (update_cb app now_us reset_us).ret = true) ∧
    (app.state = STATE_FLASHBANG → app.flashbang_duration_ms = GDouble.zero →
      (update_cb app now_us reset_us).app.state = STATE_FADE_IN ∧
      (update_cb app now_us reset_us).app.start_time_us = reset_us ∧
      (update_cb app now_us reset_us).ret = true) ∧
    (app.state = STATE_FADE_IN → app.fade_in_duration_ms = GDouble.zero →
      (update_cb app now_us reset_us).app.state = STATE_SHOW ∧
      (update_cb app now_us reset_us).app.start_time_us = reset_us ∧
      (update_cb app now_us reset_us).ret = true) ∧
    (app.state = STATE_SHOW → app.show_duration_ms = GDouble.zero →
      (update_cb app now_us reset_us).app.state = STATE_FADE_OUT ∧
      (update_cb app now_us reset_us).app.start_time_us = reset_us ∧
      (update_cb app now_us reset_us).ret = true) ∧
    (app.state = STATE_FADE_OUT → app.fade_out_duration_ms = GDouble.zero →
      (update_cb app now_us reset_us).ret = false ∧
      (update_cb app now_us reset_us).main_quit = true) := by
  have he := elapsed_nonneg app now_us hel
  have hge : GDouble.ge (elapsed_ms app now_us) GDouble.zero = true := by
    rw [elapsed_ms_eq]
    simpa [GDouble.ge, GDouble.zero] using he
  refine ⟨?_, ?_, ?_, ?_, ?_⟩ <;> intro hs hd <;> unfold update_cb <;>
    simp only [hs, hd, hge, if_true, continue_with, and_self]

/-- C4 at the stated case: `main`'s struct with `flashbang_duration_ms = 0.0`,
in `STATE_FLASHBANG` since clock reading 1000000, called 16 ms later. -/
theorem update_cb_zero_duration_exits_witness :
    (update_cb { main_app (GDouble.fin 6000) none 1000000 with
        state := STATE_FLASHBANG, flashbang_duration_ms := GDouble.zero }
      1016000 1016002).app.state = STATE_FADE_IN ∧
    (update_cb { main_app (GDouble.fin 6000) none 1000000 with
        state := STATE_FLASHBANG, flashbang_duration_ms := GDouble.zero }
      1016000 1016002).app.start_time_us = 1016002 ∧
    (update_cb { main_app (GDouble.fin 6000) none 1000000 with
        state := STATE_FLASHBANG, flashbang_duration_ms := GDouble.zero }
      1016000 1016002).ret = true :=
  (update_cb_zero_duration_exits
    { main_app (GDouble.fin 6000) none 1000000 with
        state := STATE_FLASHBANG, flashbang_duration_ms := GDouble.zero }
    1016000 1016002 (by decide!)).2.1 rfl rfl

theorem elapsed_mono (app : FlashbangApp) (now1_us now2_us : Int) (h : now1_us ≤ now2_us) :
    ((now1_us - app.start_time_us : Int) : ℚ) / 1000 ≤
      ((now2_us - app.start_time_us : Int) : ℚ) / 1000 := by
  have h1 : ((now1_us - app.start_time_us : Int) : ℚ) ≤
      ((now2_us - app.start_time_us : Int) : ℚ) := by
    exact_mod_cast Int.sub_le_sub_right h _
  exact div_le_div_of_nonneg_right h1 (by norm_num)

/-- The value stored by a fade-in call does not decrease with `elapsed`. -/
theorem fade_in_value_mono (e1 e2 : ℚ) (h0 : 0 ≤ e1) (h12 : e1 ≤ e2) (d : GDouble)
    (hd : GDouble.ge d GDouble.zero = true) :
    GDouble.le
      (if GDouble.ge (GDouble.fin e1) d = true then GDouble.one
        else GDouble.MIN GDouble.one (GDouble.div (GDouble.fin e1) d))
      (if GDouble.ge (GDouble.fin e2) d = true then GDouble.one
        else GDouble.MIN GDouble.one (GDouble.div (GDouble.fin e2) d)) = true := by
  rcases GDouble.ge_zero_cases d hd with ⟨q, rfl, hq⟩ | rfl
  · by_cases ha : q ≤ e1
    · have hb : q ≤ e2 := le_trans ha h12
      simp [GDouble.ge, ha, hb, GDouble.one]
    · by_cases hb : q ≤ e2
      · have hqpos : 0 < q := lt_of_le_of_lt h0 (not_le.mp ha)
        have hne : q ≠ 0 := ne_of_gt hqpos
        have h1 : e1 / q < 1 := (div_lt_one hqpos).mpr (not_le.mp ha)
        simp [GDouble.ge, ha, hb, GDouble.one, GDouble.MIN, hne, not_lt.mpr (le_of_lt h1),
          le_of_lt h1]
      · have hqpos : 0 < q := lt_of_le_of_lt h0 (not_le.mp ha)
        have hne : q ≠ 0 := ne_of_gt hqpos
        have h1 : e1 / q < 1 := (div_lt_one hqpos).mpr (not_le.mp ha)
        have h2 : e2 / q < 1 := (div_lt_one hqpos).mpr (not_le.mp hb)
        have h3 : e1 / q ≤ e2 / q := div_le_div_of_nonneg_right h12 hq
        simp [GDouble.ge, ha, hb, GDouble.one, GDouble.MIN, hne, not_lt.mpr (le_of_lt h1),
          not_lt.mpr (le_of_lt h2), h3]
  · norm_num [GDouble.ge, GDouble.one, GDouble.MIN]

/-- The fade-out ramp does not increase with `elapsed`, unless it starts at
`0/0`. -/
theorem fade_out_value_mono (e1 e2 : ℚ) (h12 : e1 ≤ e2) (d : GDouble)
    (hd : GDouble.ge d GDouble.zero = true) (hz : d = GDouble.zero → 0 < e1) :
    GDouble.ge
      (GDouble.MAX GDouble.zero (GDouble.sub GDouble.one (GDouble.div (GDouble.fin e1) d)))
      (GDouble.MAX GDouble.zero (GDouble.sub GDouble.one (GDouble.div (GDouble.fin e2) d)))
      = true := by
  rcases GDouble.ge_zero_cases d hd with ⟨q, rfl, hq⟩ | rfl
  · by_cases hq0 : q = 0
    · subst hq0
      have hp1 : 0 < e1 := hz rfl
      have hp2 : 0 < e2 := lt_of_lt_of_le hp1 h12
      simp [GDouble.ge, GDouble.zero, GDouble.one, GDouble.MAX, GDouble.gt, hp1, hp2]
    · have h3 : e1 / q ≤ e2 / q := div_le_div_of_nonneg_right h12 hq
      by_cases ha : 1 - e1 / q < 0
      · have hb : 1 - e2 / q < 0 := by linarith
        simp [GDouble.ge, GDouble.zero, GDouble.one, GDouble.MAX, GDouble.gt, hq0, ha, hb]
      · by_cases hb : 1 - e2 / q < 0
        · simp [GDouble.ge, GDouble.zero, GDouble.one, GDouble.MAX, GDouble.gt, hq0, ha, hb]
          linarith
        · simp [GDouble.ge, GDouble.zero, GDouble.one, GDouble.MAX, GDouble.gt, hq0, ha, hb]
          linarith
  · norm_num [GDouble.ge, GDouble.zero, GDouble.one, GDouble.MAX, GDouble.gt]

/-- C6, as stated, fails for a fade-out of duration `0.0`: at `e1 = 0` the call
in `STATE_FADE_OUT` stores NaN, at `e2 = 1` ms it stores `0.0`, and
`NaN >= 0.0` is false for both alphas. -/
theorem C6_counterexample :
    zero_fade_out_app.state = STATE_FADE_OUT ∧
    elapsed_ms zero_fade_out_app 0 = GDouble.fin 0 ∧
    elapsed_ms zero_fade_out_app 1000 = GDouble.fin 1 ∧
    GDouble.ge (update_cb zero_fade_out_app 0 0).app.window_alpha
      (update_cb zero_fade_out_app 1000 1000).app.window_alpha = false ∧
    GDouble.ge (update_cb zero_fade_out_app 0 0).app.image_alpha
      (update_cb zero_fade_out_app 1000 1000).app.image_alpha = false := by
  decide!

/-- C6 (amended): for a fixed struct and clock readings with
`0 <= e1 <= e2`, the `image_alpha` stored by `update_cb` in `STATE_FADE_IN` at
`e1` is `<=` the one stored at `e2` (fade-in duration `>= 0`), and the
`window_alpha` and `image_alpha` stored in `STATE_FADE_OUT` at `e1` are `>=`
those stored at `e2` (fade-out duration `> 0`, or `= 0` with `e1 > 0`). -/
theorem update_cb_fade_monotone (app : FlashbangApp)
    (now1_us now2_us reset1_us reset2_us : Int)
    (h1 : app.start_time_us ≤ now1_us) (h12 : now1_us ≤ now2_us) :
    (app.state = STATE_FADE_IN →
      GDouble.ge app.fade_in_duration_ms GDouble.zero = true →
      GDouble.le (update_cb app now1_us reset1_us).app.image_alpha
        (update_cb app now2_us reset2_us).app.image_alpha = true) ∧
    (app.state = STATE_FADE_OUT →
      GDouble.ge app.fade_out_duration_ms GDouble.zero = true →
      (app.fade_out_duration_ms = GDouble.zero → app.start_time_us < now1_us) →
      GDouble.ge (update_cb app now1_us reset1_us).app.window_alpha
        (update_cb app now2_us reset2_us).app.window_alpha = true ∧
      GDouble.ge (update_cb app now1_us reset1_us).app.image_alpha
        (update_cb app now2_us reset2_us).app.image_alpha = true) := by
  have he1 := elapsed_nonneg app now1_us h1
  have he12 := elapsed_mono app now1_us now2_us h12
  refine ⟨?_, ?_⟩
  · intro hs hd
    rw [fade_in_image_alpha app now1_us reset1_us hs,
      fade_in_image_alpha app now2_us reset2_us hs, elapsed_ms_eq, elapsed_ms_eq]
    exact fade_in_value_mono _ _ he1 he12 _ hd
  · intro hs hd hz
    obtain ⟨a1, a2⟩ := fade_out_alphas app now1_us reset1_us hs
    obtain ⟨b1, b2⟩ := fade_out_alphas app now2_us reset2_us hs
    rw [a1, a2, b1, b2, elapsed_ms_eq, elapsed_ms_eq]
    have h := fade_out_value_mono _ _ he12 _ hd
      (fun hd0 => elapsed_pos app now1_us (hz hd0))
    exact ⟨h, h⟩

/-- The amended C6 at concrete inputs: `main`'s durations, the fade phase
started at 0, readings at 250 ms and 750 ms. -/
theorem update_cb_fade_monotone_witness :
    GDouble.le
      (update_cb { main_app (GDouble.fin 6000) none 0 with state := STATE_FADE_IN }
        250000 250000).app.image_alpha
      (update_cb { main_app (GDouble.fin 6000) none 0 with state := STATE_FADE_IN }
        750000 750000).app.image_alpha = true ∧
    (GDouble.ge
      (update_cb { main_app (GDouble.fin 6000) none 0 with state := STATE_FADE_OUT }
        250000 250000).app.window_alpha
      (update_cb { main_app (GDouble.fin 6000) none 0 with state := STATE_FADE_OUT }
        750000 750000).app.window_alpha = true ∧
    GDouble.ge
      (update_cb { main_app (GDouble.fin 6000) none 0 with state := STATE_FADE_OUT }
        250000 250000).app.image_alpha
      (update_cb { main_app (GDouble.fin 6000) none 0 with state := STATE_FADE_OUT }
        750000 750000).app.image_alpha = true) :=
  ⟨(update_cb_fade_monotone
      { main_app (GDouble.fin 6000) none 0 with state := STATE_FADE_IN }
      250000 750000 250000 750000 (by decide) (by decide)).1 rfl (by decide!),
   (update_cb_fade_monotone
      { main_app (GDouble.fin 6000) none 0 with state := STATE_FADE_OUT }
      250000 750000 250000 750000 (by decide) (by decide)).2 rfl (by decide!)
      (fun h => absurd h (by decide!))⟩

/-- The locals of the image branch, for sizes `>= 1`: all finite, with the
scale the smaller of the two ratios. -/
theorem placement_eq (width height img_width img_height : Int)
    (hiw : 1 ≤ img_width) (hih : 1 ≤ img_height) :
    placement width height img_width img_height =
      { scale := GDouble.fin (min ((width : ℚ) / img_width) ((height : ℚ) / img_height))
        draw_width := GDouble.fin
          (img_width * min ((width : ℚ) / img_width) ((height : ℚ) / img_height))
        draw_height := GDouble.fin
          (img_height * min ((width : ℚ) / img_width) ((height : ℚ) / img_height))
        x := GDouble.fin ((width -
          img_width * min ((width : ℚ) / img_width) ((height : ℚ) / img_height)) / 2)
        y := GDouble.fin ((height -
          img_height * min ((width : ℚ) / img_width) ((height : ℚ) / img_height)) / 2) } := by
  have h1 : (img_width : ℚ) ≠ 0 := by
    have : (1 : ℚ) ≤ img_width := by exact_mod_cast hiw
    linarith
  have h2 : (img_height : ℚ) ≠ 0 := by
    have : (1 : ℚ) ≤ img_height := by exact_mod_cast hih
    linarith
  unfold placement
  simp only [GDouble.ofInt, GDouble.div_fin_fin, h1, h2, if_false, GDouble.MIN,
    GDouble.lt_fin_fin, decide_eq_true_eq]
  by_cases h : (width : ℚ) / img_width < (height : ℚ) / img_height
  · simp [h, min_eq_left (le_of_lt h)]
  · simp [h, min_eq_right (not_lt.mp h)]

/-- The placement of a 4x3 pixbuf on a 1920x1080 widget: scale 360, drawn
1440x1080, offset (240, 0). -/
theorem placement_example :
    placement 1920 1080 4 3 =
      { scale := GDouble.fin 360, draw_width := GDouble.fin 1440,
        draw_height := GDouble.fin 1080, x := GDouble.fin 240, y := GDouble.fin 0 } := by
  decide!

/-! Invariants of the tick loop. -/

theorem run_nil (tl : Timeline) : run tl [] = tl := rfl

theorem run_cons (tl : Timeline) (t : Tick) (ts : List Tick) :
    run tl (t :: ts) = run (tick tl t) ts := rfl

/-- A property of timelines that holds at the start and is kept by every
firing of the timer holds after any number of firings. -/
theorem run_invariant (P : Timeline → Prop) (hstep : ∀ tl t, P tl → P (tick tl t))
    (tl : Timeline) (h0 : P tl) (ts : List Tick) : P (run tl ts) := by
  induction ts generalizing tl with
  | nil => exact h0
  | cons t ts ih => exact ih (tick tl t) (hstep tl t h0)

theorem tick_finished (tl : Timeline) (t : Tick) (h : tl.finished = true) :
    tick tl t = tl := by
  simp [tick, h]

theorem tick_running (tl : Timeline) (t : Tick) (h : tl.finished = false) :
    tick tl t =
      { app := (update_cb tl.app t.now_us t.reset_us).app,
        finished := !(update_cb tl.app t.now_us t.reset_us).ret } := by
  simp [tick, h]

/-- The state, the image alpha and the return value `update_cb` leaves, by the
state it is called in and by whether the phase has run out. -/
theorem update_cb_cases (app : FlashbangApp) (now_us reset_us : Int) :
    (app.state = STATE_WAITING ∧
      (update_cb app now_us reset_us).app.image_alpha = app.image_alpha ∧
      (update_cb app now_us reset_us).app.window_alpha = GDouble.zero ∧
      (update_cb app now_us reset_us).ret = true ∧
      ((update_cb app now_us reset_us).app.state = STATE_WAITING ∨
       (update_cb app now_us reset_us).app.state = STATE_FLASHBANG)) ∨
    (app.state = STATE_FLASHBANG ∧
      (update_cb app now_us reset_us).app.image_alpha = GDouble.zero ∧
      (update_cb app now_us reset_us).app.window_alpha = GDouble.one ∧
      (update_cb app now_us reset_us).ret = true ∧
      ((update_cb app now_us reset_us).app.state = STATE_FLASHBANG ∨
       (update_cb app now_us reset_us).app.state = STATE_FADE_IN)) ∨
    (app.state = STATE_FADE_IN ∧
      (update_cb app now_us reset_us).app.window_alpha = GDouble.one ∧
      (update_cb app now_us reset_us).ret = true ∧
      ((update_cb app now_us reset_us).app.state = STATE_FADE_IN ∨
       (update_cb app now_us reset_us).app.state = STATE_SHOW)) ∨
    (app.state = STATE_SHOW ∧
      (update_cb app now_us reset_us).app.image_alpha = GDouble.one ∧
      (update_cb app now_us reset_us).app.window_alpha = GDouble.one ∧
      (update_cb app now_us reset_us).ret = true ∧
      ((update_cb app now_us reset_us).app.state = STATE_SHOW ∨
       (update_cb app now_us reset_us).app.state = STATE_FADE_OUT)) ∨
    (app.state = STATE_FADE_OUT ∧
      (update_cb app now_us reset_us).app.state = STATE_FADE_OUT) := by
  cases hs : app.state with
  | STATE_WAITING =>
      refine Or.inl ⟨rfl, ?_⟩
      cases hc : GDouble.ge (elapsed_ms app now_us) app.audio_delay_ms <;>
        simp [update_cb, hs, hc, continue_with]
  | STATE_FLASHBANG =>
      refine Or.inr (Or.inl ⟨rfl, ?_⟩)
      cases hc : GDouble.ge (elapsed_ms app now_us) app.flashbang_duration_ms <;>
        simp [update_cb, hs, hc, continue_with]
  | STATE_FADE_IN =>
      refine Or.inr (Or.inr (Or.inl ⟨rfl, ?_⟩))
      cases hc : GDouble.ge (elapsed_ms app now_us) app.fade_in_duration_ms <;>
        simp [update_cb, hs, hc, continue_with]
  | STATE_SHOW =>
      refine Or.inr (Or.inr (Or.inr (Or.inl ⟨rfl, ?_⟩)))
      cases hc : GDouble.ge (elapsed_ms app now_us) app.show_duration_ms <;>
        simp [update_cb, hs, hc, continue_with]
  | STATE_FADE_OUT =>
      refine Or.inr (Or.inr (Or.inr (Or.inr ⟨rfl, ?_⟩)))
      cases hc : GDouble.ge (elapsed_ms app now_us) app.fade_out_duration_ms <;>
        simp [update_cb, hs, hc, continue_with]

/-- One firing keeps `image_alpha = 0.0` in the waiting and flash states. -/
theorem tick_keeps_image_alpha_zero (tl : Timeline) (t : Tick)
    (h : tl.app.state = STATE_WAITING ∨ tl.app.state = STATE_FLASHBANG →
      tl.app.image_alpha = GDouble.zero) :
    (tick tl t).app.state = STATE_WAITING ∨ (tick tl t).app.state = STATE_FLASHBANG →
      (tick tl t).app.image_alpha = GDouble.zero := by
  cases hf : tl.finished with
  | true => rw [tick_finished tl t hf]; exact h
  | false =>
      rw [tick_running tl t hf]
      simp only
      rcases update_cb_cases tl.app t.now_us t.reset_us with
        ⟨hs, hi, _, _, _⟩ | ⟨_, hi, _, _, _⟩ | ⟨_, _, _, hn⟩ | ⟨_, _, _, _, hn⟩ | ⟨_, hn⟩
      · intro _; rw [hi]; exact h (Or.inl hs)
      · intro _; exact hi
      · intro h2; rcases hn with hn | hn <;> rcases h2 with h2 | h2 <;> simp [hn] at h2
      · intro h2; rcases hn with hn | hn <;> rcases h2 with h2 | h2 <;> simp [hn] at h2
      · intro h2; rcases h2 with h2 | h2 <;> simp [hn] at h2

/-- C9: in every state reached from the initial struct (waiting, both alphas
`0.0`) by any sequence of `update_cb` calls, for any durations and any clock
readings, `image_alpha` is `0.0` whenever the state is `STATE_WAITING` or
`STATE_FLASHBANG`. -/
theorem image_alpha_zero_while_waiting_or_flash
    (audio_delay_ms flashbang_duration_ms fade_in_duration_ms show_duration_ms
      fade_out_duration_ms : GDouble) (pixbuf : Option GdkPixbuf) (t0 : Int)
    (ts : List Tick) :
    (run (start (initial_app audio_delay_ms flashbang_duration_ms fade_in_duration_ms
        show_duration_ms fade_out_duration_ms pixbuf t0)) ts).app.state = STATE_WAITING ∨
    (run (start (initial_app audio_delay_ms flashbang_duration_ms fade_in_duration_ms
        show_duration_ms fade_out_duration_ms pixbuf t0)) ts).app.state = STATE_FLASHBANG →
    (run (start (initial_app audio_delay_ms flashbang_duration_ms fade_in_duration_ms
        show_duration_ms fade_out_duration_ms pixbuf t0)) ts).app.image_alpha
      = GDouble.zero :=
  run_invariant
    (fun tl => tl.app.state = STATE_WAITING ∨ tl.app.state = STATE_FLASHBANG →
      tl.app.image_alpha = GDouble.zero)
    tick_keeps_image_alpha_zero _ (fun _ => rfl) ts

/-- C9 at a concrete run: `main`'s struct after 70 firings of the 16 ms timer
(1120 ms) is in `STATE_FLASHBANG`, with `image_alpha = 0.0`. -/
theorem image_alpha_zero_while_waiting_or_flash_witness :
    (run (start (initial_app (GDouble.fin 1000) (GDouble.fin 300) (GDouble.fin 1000)
      (GDouble.fin 2000) (GDouble.fin 1000) none 0)) (ticks_every 16 70)).app.state
      = STATE_FLASHBANG ∧
    (run (start (initial_app (GDouble.fin 1000) (GDouble.fin 300) (GDouble.fin 1000)
      (GDouble.fin 2000) (GDouble.fin 1000) none 0)) (ticks_every 16 70)).app.image_alpha
      = GDouble.zero :=
  ⟨by decide!,
   image_alpha_zero_while_waiting_or_flash (GDouble.fin 1000) (GDouble.fin 300)
    (GDouble.fin 1000) (GDouble.fin 2000) (GDouble.fin 1000) none 0 (ticks_every 16 70)
    (Or.inr (by decide!))⟩

/-- C10 at the failing input: `main`'s struct, the timer firing every 16 ms.
After the 62nd firing (992 ms) the phase is still waiting; the 63rd (1008 ms)
moves it to `STATE_FLASHBANG` and leaves `window_alpha = 0.0`, so the draw it
queues paints the white layer with alpha `0.0`; only the 64th firing stores
`window_alpha = 1.0`. -/
theorem flash_entered_with_window_alpha_zero :
    (run (start (main_app (GDouble.fin 6000) none 0)) (ticks_every 16 62)).phase
      = Phase.Waiting ∧
    (run (start (main_app (GDouble.fin 6000) none 0)) (ticks_every 16 63)).phase
      = Phase.Flash ∧
    (run (start (main_app (GDouble.fin 6000) none 0)) (ticks_every 16 63)).app.window_alpha
      = GDouble.fin 0 ∧
    (run (start (main_app (GDouble.fin 6000) none 0)) (ticks_every 16 63)).app.window_alpha
      ≠ GDouble.fin 1 ∧
    on_draw (run (start (main_app (GDouble.fin 6000) none 0)) (ticks_every 16 63)).app
        1920 1080 =
      [CairoOp.set_source_rgba (GDouble.fin 1) (GDouble.fin 1) (GDouble.fin 1) (GDouble.fin 0),
       CairoOp.paint] ∧
    (run (start (main_app (GDouble.fin 6000) none 0)) (ticks_every 16 64)).phase
      = Phase.Flash ∧
    (run (start (main_app (GDouble.fin 6000) none 0)) (ticks_every 16 64)).app.window_alpha
      = GDouble.fin 1 := by
  decide!

/-! Order of the phases. -/

theorem tick_phase_step (tl : Timeline) (t : Tick) :
    Phase.step tl.phase (tick tl t).phase := by
  cases hf : tl.finished with
  | true => rw [tick_finished tl t hf]; exact Or.inl rfl
  | false =>
      rw [tick_running tl t hf]
      rcases update_cb_cases tl.app t.now_us t.reset_us with
        ⟨hs, _, _, hr, hn⟩ | ⟨hs, _, _, hr, hn⟩ | ⟨hs, _, hr, hn⟩ | ⟨hs, _, _, hr, hn⟩ |
        ⟨hs, hn⟩
      · rcases hn with hn | hn <;>
          simp [Phase.step, Timeline.phase, hf, hs, hr, hn, Phase.rank]
      · rcases hn with hn | hn <;>
          simp [Phase.step, Timeline.phase, hf, hs, hr, hn, Phase.rank]
      · rcases hn with hn | hn <;>
          simp [Phase.step, Timeline.phase, hf, hs, hr, hn, Phase.rank]
      · rcases hn with hn | hn <;>
          simp [Phase.step, Timeline.phase, hf, hs, hr, hn, Phase.rank]
      · cases hr : (update_cb tl.app t.now_us t.reset_us).ret <;>
          simp [Phase.step, Timeline.phase, hf, hs, hr, hn, Phase.rank]

theorem tick_rank_le (tl : Timeline) (t : Tick) :
    tl.phase.rank ≤ (tick tl t).phase.rank := by
  rcases tick_phase_step tl t with h | h
  · rw [h]
  · omega

theorem run_rank_le (tl : Timeline) (ts : List Tick) :
    tl.phase.rank ≤ (run tl ts).phase.rank := by
  induction ts generalizing tl with
  | nil => exact le_refl _
  | cons t ts ih => exact le_trans (tick_rank_le tl t) (ih (tick tl t))

theorem trace_head (tl : Timeline) (ts : List Tick) :
    trace tl ts = tl.phase :: (trace tl ts).tail := by
  cases ts <;> rfl

theorem trace_chain (tl : Timeline) (ts : List Tick) :
    List.Chain' Phase.step (trace tl ts) := by
  induction ts generalizing tl with
  | nil => simp [trace]
  | cons t ts ih =>
      have h := ih (tick tl t)
      rw [trace_head (tick tl t) ts] at h
      show List.Chain' Phase.step (tl.phase :: trace (tick tl t) ts)
      rw [trace_head (tick tl t) ts]
      exact List.Chain'.cons (tick_phase_step tl t) h

theorem order_drop_rank (p : Phase) :
    Phase.order.drop p.rank = p :: Phase.order.drop (p.rank + 1) := by
  cases p <;> rfl

/-- The phases a run shows, repetitions dropped, are the stretch of the phase
order from the phase it starts in to the phase it ends in. -/
theorem trace_destutter (tl : Timeline) (ts : List Tick) :
    List.destutter (· ≠ ·) (trace tl ts) =
      (Phase.order.drop tl.phase.rank).take ((run tl ts).phase.rank + 1 - tl.phase.rank) := by
  induction ts generalizing tl with
  | nil =>
      simp only [trace, run_nil, List.destutter_singleton]
      rw [order_drop_rank, show tl.phase.rank + 1 - tl.phase.rank = 1 by omega]
      rfl
  | cons t ts ih =>
      have h := ih (tick tl t)
      have hle := run_rank_le (tick tl t) ts
      rw [trace_head (tick tl t) ts, List.destutter_cons'] at h
      show List.destutter (· ≠ ·) (tl.phase :: trace (tick tl t) ts) = _
      rw [run_cons, trace_head (tick tl t) ts, List.destutter_cons', List.destutter'_cons]
      rcases tick_phase_step tl t with hp | hp
      · rw [if_neg (by simp [hp]), ← hp, ← hp] at *
        exact h
      · have hne : tl.phase ≠ (tick tl t).phase := by
          intro heq; rw [← heq] at hp; omega
        rw [if_pos hne, h, order_drop_rank tl.phase, ← hp]
        rw [show (run (tick tl t) ts).phase.rank + 1 - tl.phase.rank =
          ((run (tick tl t) ts).phase.rank + 1 - (tick tl t).phase.rank) + 1 by omega]
        rfl

/-- C2: for any durations and any sequence of `update_cb` calls from the
initial struct, whatever the clock readings, every call keeps the phase or
moves it to the immediate successor, and the phases shown, repetitions dropped,
are exactly the phase order `Waiting, Flash, FadeIn, Show, FadeOut, Done` up to
the phase reached: none is skipped and none comes back. `Done` is the call that
returned `G_SOURCE_REMOVE`. -/
theorem phases_visited_in_order
    (audio_delay_ms flashbang_duration_ms fade_in_duration_ms show_duration_ms
      fade_out_duration_ms : GDouble) (pixbuf : Option GdkPixbuf) (t0 : Int)
    (ts : List Tick) :
    List.Chain' Phase.step
      (trace (start (initial_app audio_delay_ms flashbang_duration_ms fade_in_duration_ms
        show_duration_ms fade_out_duration_ms pixbuf t0)) ts) ∧
    List.destutter (· ≠ ·)
      (trace (start (initial_app audio_delay_ms flashbang_duration_ms fade_in_duration_ms
        show_duration_ms fade_out_duration_ms pixbuf t0)) ts) =
      Phase.order.take
        ((run (start (initial_app audio_delay_ms flashbang_duration_ms fade_in_duration_ms
          show_duration_ms fade_out_duration_ms pixbuf t0)) ts).phase.rank + 1) :=
  ⟨trace_chain _ ts, by
    rw [trace_destutter]
    rfl⟩

/-- A whole run of `main`'s struct (audio of 6000 ms, so a show of 2700 ms)
under the 16 ms timer: after 380 firings the timer is removed and every phase
has been shown once, in order. -/
theorem main_run_visits_every_phase :
    (run (start (main_app (GDouble.fin 6000) none 0)) (ticks_every 16 380)).finished = true ∧
    List.destutter (· ≠ ·)
      (trace (start (main_app (GDouble.fin 6000) none 0)) (ticks_every 16 380)) =
      [Phase.Waiting, Phase.Flash, Phase.FadeIn, Phase.Show, Phase.FadeOut, Phase.Done] := by
  decide!

end Flashbang
